import Mathlib

/-!
Verification of the FinOps dynamic-plugin core logic (series parsing,
series reconciliation, utilization-model derivation, query building),
shallowly embedded from the TypeScript source in `src/`.

JavaScript numbers that can be non-finite are modelled by `JSNum`
(a finite rational or one of NaN / +Inf / -Inf); values that the source
guarantees finite are modelled directly as `ℚ`.  JavaScript `Map`s built
by repeated `set` are modelled as association lists with last-write-wins
lookup.  `Array.from(new Set(...)).sort()` is modelled as `dedup` followed
by `insertionSort`: both produce the unique duplicate-free sorted list
with the same membership, which is all downstream code observes.
-/

/-- A JavaScript number: a finite rational, or NaN / +Infinity / -Infinity.
`Number(...)` of a missing or unparseable sample is NaN. -/
inductive JSNum where
  | fin (q : ℚ)
  | nan
  | posInf
  | negInf
deriving DecidableEq, Repr

/-- `Number.isFinite`. -/
def JSNum.isFin : JSNum → Bool
  | .fin _ => true
  | _ => false

/-- The rational value of a finite `JSNum` (0 on the non-finite cases,
which every use site guards with `isFin`). -/
def JSNum.val : JSNum → ℚ
  | .fin q => q
  | _ => 0

/-- `Number.isFinite` lifted to a nullable number (`null` is not finite). -/
def optIsFin : Option JSNum → Bool
  | some n => n.isFin
  | none => false

/-- The rational value of a nullable `JSNum` (0 when null or non-finite;
every use site guards with `optIsFin`). -/
def optVal : Option JSNum → ℚ
  | some n => n.val
  | none => 0

/-- `clamp01 = (x) => Math.max(0, Math.min(1, x))` (all revisions). -/
def clamp01 (x : ℚ) : ℚ := max 0 (min 1 x)

/-- `Math.round` on a finite value: floor(x + 1/2), halves round up. -/
def jsRound (x : ℚ) : ℤ := Int.floor (x + 1 / 2)

/-- `pct = (x) => Math.round(x * 100)` (part_002 line 30). -/
def pct (x : ℚ) : ℤ := jsRound (x * 100)

/-- One parsed metric point: `type Series = { container, value }`
(part_002 lines 22-25).  The parser only emits finite values, so `value`
is a plain rational. -/
structure Series where
  container : String
  value : ℚ
deriving DecidableEq, Repr

/-- One raw entry of a Prometheus payload, as read by `parsePrometheus`:
`value` is the result of `Number(r?.value?.[1])` and `container` is the
optional `r.metric?.container` label. -/
structure RawResult where
  value : JSNum
  container : Option String
deriving DecidableEq, Repr

/-- The body of the `.map` in `parsePrometheus` (part_002 lines 40-48):
drop the entry when the value is not finite, then default the container
label to `""` and drop the entry when it is empty or the reserved
sentinel `"POD"`; otherwise keep `{ container, value }`. -/
def parseEntry (r : RawResult) : Option Series :=
  if r.value.isFin then
    let container := r.container.getD ""
    if container = "" || container = "POD" then none
    else some (Series.mk container r.value.val)
  else none

/-- `parsePrometheus` (part_002 lines 37-50): map each raw result through
`parseEntry` and keep the non-null outcomes (`.filter(Boolean)`). -/
def parsePrometheus (results : List RawResult) : List Series :=
  results.filterMap parseEntry

/-- Spec-side characterization of which raw entries the parser keeps:
finite sample value, non-empty container label, label not the reserved
sentinel `"POD"`. -/
def keepEntry (r : RawResult) : Bool :=
  r.value.isFin && (!(r.container.getD "" = "") && !(r.container.getD "" = "POD"))

/-- Spec-side shape of a kept entry: the defaulted container label paired
with the (finite) numeric value. -/
def seriesOfRaw (r : RawResult) : Series :=
  Series.mk (r.container.getD "") r.value.val

theorem parseEntry_eq (r : RawResult) :
    parseEntry r = if keepEntry r then some (seriesOfRaw r) else none := by
  unfold parseEntry keepEntry seriesOfRaw
  cases h : r.value.isFin <;> simp
  by_cases h1 : r.container.getD "" = "" <;> by_cases h2 : r.container.getD "" = "POD" <;>
    simp [h1, h2]

/-- The externally-loaded settings document `finops-settings.json`.
Fields that the code reads with `?? default` fallbacks are optional.
`enableThresholdColors` is read through `Boolean(...)`, i.e. a missing
field behaves as `false`, so it is a plain `Bool` here. -/
structure Settings where
  enableThresholdColors : Bool
  redBelow : Option ℚ
  yellowBelow : Option ℚ
  colorGreen : Option String
  colorYellow : Option String
  colorRed : Option String
deriving DecidableEq, Repr

/-- The documented default configuration: threshold coloring enabled,
every other field absent so that the compiled-in defaults
(redBelow 0.1, yellowBelow 0.5, the three PatternFly colors) apply. -/
def defaultSettings : Settings :=
  Settings.mk true none none none none none

/-- `getDonutColor` (FinOpsTab.tsx lines 599-614): green when disabled or
the ratio is null / non-finite (a `ratio : Option ℚ` is finite whenever
present, because it is a quotient of finite parsed values); otherwise
clamp the ratio to [0,1] and compare against the configured thresholds,
defaulting redBelow to 0.1 and yellowBelow to 0.5. -/
def getDonutColor (s : Settings) (usedFrac : Option ℚ) (enabled : Bool) : String :=
  let green := s.colorGreen.getD "#3E8635"
  let red := s.colorRed.getD "#C9190B"
  let yellow := s.colorYellow.getD "#F0AB00"
  match usedFrac, enabled with
  | some u, true =>
    let r := clamp01 u
    if r < s.redBelow.getD (1 / 10) then red
    else if r < s.yellowBelow.getD (1 / 2) then yellow
    else green
  | _, _ => green

/-- The shared donut model (FinOpsTab.tsx lines 618-625).  The source
field `ratio` is named `ratioVal` here. -/
structure DonutModel where
  hasBaseline : Bool
  ratioVal : Option ℚ
  ratioClamped : Option ℚ
  badgeText : String
  overReservedText : String
  color : String
deriving DecidableEq, Repr

/-- `hasBaseline = requestVal !== null && Number.isFinite(requestVal) && requestVal > 0`
(FinOpsTab.tsx line 628). -/
def hasBaselineB (requestVal : Option JSNum) : Bool :=
  optIsFin requestVal && decide (0 < optVal requestVal)

/-- `ratio = hasBaseline && maxVal !== null && Number.isFinite(maxVal) ? maxVal / requestVal : null`
(FinOpsTab.tsx lines 630-631). -/
def ratioValOf (maxVal requestVal : Option JSNum) : Option ℚ :=
  if hasBaselineB requestVal && optIsFin maxVal then some (optVal maxVal / optVal requestVal)
  else none

/-- `buildDonutModel` (FinOpsTab.tsx lines 627-652).  The module-level
`settings` import is passed explicitly.  A present `ratio` is always
finite here, so the source's `Number.isFinite(ratio)` guards reduce to
presence checks; likewise `hasBaseline && ratio !== null` reduces to
`ratio !== null` because a non-null ratio implies `hasBaseline`. -/
def buildDonutModel (s : Settings) (maxVal requestVal : Option JSNum) : DonutModel :=
  let ratioV := ratioValOf maxVal requestVal
  DonutModel.mk
    (hasBaselineB requestVal)
    ratioV
    (ratioV.map clamp01)
    (match ratioV with
      | some r => toString (pct (clamp01 r)) ++ "% used"
      | none => "No request")
    (match ratioV.map (fun r => max 0 (1 - r)) with
      | some o => toString (pct o) ++ "%"
      | none => "N/A")
    (getDonutColor s ratioV s.enableThresholdColors)

theorem bd_hasBaseline (s : Settings) (mx rq : Option JSNum) :
    (buildDonutModel s mx rq).hasBaseline = hasBaselineB rq := rfl

theorem bd_ratioVal (s : Settings) (mx rq : Option JSNum) :
    (buildDonutModel s mx rq).ratioVal = ratioValOf mx rq := rfl

theorem bd_ratioClamped (s : Settings) (mx rq : Option JSNum) :
    (buildDonutModel s mx rq).ratioClamped = (ratioValOf mx rq).map clamp01 := rfl

theorem bd_badgeText (s : Settings) (mx rq : Option JSNum) :
    (buildDonutModel s mx rq).badgeText =
      match ratioValOf mx rq with
      | some r => toString (pct (clamp01 r)) ++ "% used"
      | none => "No request" := rfl

theorem bd_overReservedText (s : Settings) (mx rq : Option JSNum) :
    (buildDonutModel s mx rq).overReservedText =
      match (ratioValOf mx rq).map (fun r => max 0 (1 - r)) with
      | some o => toString (pct o) ++ "%"
      | none => "N/A" := rfl

theorem bd_color (s : Settings) (mx rq : Option JSNum) :
    (buildDonutModel s mx rq).color =
      getDonutColor s (ratioValOf mx rq) s.enableThresholdColors := rfl

/-- `getStatusLabel` (FinOpsTab.tsx lines 104-109), the fixed-boundary
policy of the limit-based revision: `{ text, color }` pairs. -/
def getStatusLabel (ratioIn : Option ℚ) : String × String :=
  match ratioIn with
  | none => ("N/A", "#6a6e73")
  | some r =>
    if r ≥ 9 / 10 then ("CRITICAL", "#c9190b")
    else if r ≥ 7 / 10 then ("WARNING", "#f0ab00")
    else ("OK", "#3e8635")

/-- `getRatioColor` (FinOpsTab.tsx lines 97-102): the color component of
the fixed-boundary policy. -/
def getRatioColor (ratioIn : Option ℚ) : String :=
  match ratioIn with
  | none => "#6a6e73"
  | some r =>
    if r ≥ 9 / 10 then "#c9190b"
    else if r ≥ 7 / 10 then "#f0ab00"
    else "#3e8635"

/-- Severity rank of a status label: OK (and N/A) 0, WARNING 1, CRITICAL 2. -/
def statusRank (ratioIn : Option ℚ) : ℕ :=
  if (getStatusLabel ratioIn).1 = "CRITICAL" then 2
  else if (getStatusLabel ratioIn).1 = "WARNING" then 1
  else 0

/-- `percentText` of the limit-based revision (FinOpsTab.tsx line 350):
`canComputeRatio ? Math.round(ratio * 100) + "%" : "N/A"`.
`canComputeRatio` there is equivalent to the ratio being non-null. -/
def percentTextA (ratioIn : Option ℚ) : String :=
  match ratioIn with
  | some r => toString (jsRound (r * 100)) ++ "%"
  | none => "N/A"

/-- Lookup in a JavaScript `Map` built by `series.forEach(s => m.set(s.container, s.value))`:
the last entry with the given container wins. -/
def mapLookup : List Series → String → Option ℚ
  | [], _ => none
  | e :: rest, c =>
    match mapLookup rest c with
    | some v => some v
    | none => if e.container = c then some e.value else none

/-- The key set of such a `Map` (`m.keys()` up to order; only membership
is observed after the final sort). -/
def mapKeys (s : List Series) : List String :=
  (s.map Series.container).dedup

/-- Whether an optional final map value is strictly positive
(the `.filter(([, v]) => v > 0)` test on map entries). -/
def isPos : Option ℚ → Bool
  | some v => decide (0 < v)
  | none => false

/-- The containers whose final map value is strictly positive:
`Array.from(m.entries()).filter(([, v]) => v > 0).map(([c]) => c)`. -/
def posKeys (s : List Series) : List String :=
  (mapKeys s).filter (fun c => isPos (mapLookup s c))

theorem mapLookup_mem (s : List Series) (c : String) :
    (mapLookup s c).isSome = true ↔ ∃ e ∈ s, e.container = c := by
  induction s with
  | nil => simp [mapLookup]
  | cons e rest ih =>
    simp only [mapLookup, List.mem_cons]
    cases hr : mapLookup rest c with
    | some v =>
      simp only [hr, Option.isSome_some, true_iff]
      rw [hr] at ih
      obtain ⟨e2, he2, hc⟩ := ih.mp rfl
      exact ⟨e2, Or.inr he2, hc⟩
    | none =>
      rw [hr] at ih
      by_cases hc : e.container = c
      · simp only [hc, if_pos, Option.isSome_some, true_iff]
        exact ⟨e, Or.inl rfl, hc⟩
      · rw [if_neg hc]
        simp only [Option.isSome_none, Bool.false_eq_true, false_iff, not_exists, not_and] at ih ⊢
        rintro e2 (he2 | he2)
        · exact he2 ▸ hc
        · exact ih e2 he2

theorem mem_mapKeys (s : List Series) (c : String) :
    c ∈ mapKeys s ↔ ∃ e ∈ s, e.container = c := by
  simp [mapKeys, List.mem_dedup, List.mem_map]

theorem mapKeys_iff_lookup (s : List Series) (c : String) :
    c ∈ mapKeys s ↔ ∃ v, mapLookup s c = some v := by
  rw [mem_mapKeys, ← mapLookup_mem, Option.isSome_iff_exists]

theorem isPos_iff (o : Option ℚ) : isPos o = true ↔ ∃ v, o = some v ∧ 0 < v := by
  cases o <;> simp [isPos]

theorem mem_posKeys (s : List Series) (c : String) :
    c ∈ posKeys s ↔ ∃ v, mapLookup s c = some v ∧ 0 < v := by
  rw [posKeys, List.mem_filter]
  constructor
  · rintro ⟨-, hpos⟩
    exact (isPos_iff _).mp hpos
  · rintro ⟨v, hv, hp⟩
    refine ⟨(mapKeys_iff_lookup s c).mpr ⟨v, hv⟩, (isPos_iff _).mpr ⟨v, hv, hp⟩⟩

/-- `Array.from(new Set(keys)).sort()` modelled as `dedup` + `insertionSort`:
the result is the duplicate-free ascending list with the same membership,
which is exactly what the JavaScript pipeline produces. -/
def canonSort (keys : List String) : List String :=
  keys.dedup.insertionSort (fun a b => a ≤ b)

theorem mem_canonSort (keys : List String) (c : String) :
    c ∈ canonSort keys ↔ c ∈ keys := by
  rw [canonSort, (List.perm_insertionSort _ _).mem_iff, List.mem_dedup]

theorem canonSort_sorted (keys : List String) :
    List.Sorted (fun a b => a ≤ b) (canonSort keys) :=
  List.sorted_insertionSort _ _

theorem canonSort_nodup (keys : List String) : (canonSort keys).Nodup :=
  ((List.perm_insertionSort _ _).nodup_iff).mpr keys.nodup_dedup

/-- Same pipeline with the `.filter((c) => c && c !== "POD")` step that
some revisions insert between the `Set` and the `.sort()`. -/
def canonSortF (keys : List String) : List String :=
  (keys.dedup.filter (fun c => !(c = "") && !(c = "POD"))).insertionSort (fun a b => a ≤ b)

theorem mem_canonSortF (keys : List String) (c : String) :
    c ∈ canonSortF keys ↔ c ∈ keys ∧ c ≠ "" ∧ c ≠ "POD" := by
  rw [canonSortF, (List.perm_insertionSort _ _).mem_iff, List.mem_filter]
  simp [List.mem_dedup, and_assoc]

theorem canonSortF_sorted (keys : List String) :
    List.Sorted (fun a b => a ≤ b) (canonSortF keys) :=
  List.sorted_insertionSort _ _

theorem canonSortF_nodup (keys : List String) : (canonSortF keys).Nodup :=
  ((List.perm_insertionSort _ _).nodup_iff).mpr (keys.nodup_dedup.filter _)

/-- The visible container set of the request-baseline memory revision
(part_002 lines 290-297): the keys of the "current" map plus the keys of
the "max7d" (peak) map whose value is strictly positive, deduplicated and
sorted. -/
def containersP2 (current max7d : List Series) : List String :=
  canonSort (mapKeys current ++ posKeys max7d)

/-- One reconciled row of part_002 (lines 299-325).  The source field
`usedRatio` is named `usedFrac` here. -/
structure Row where
  container : String
  requestGiB : Option ℚ
  maxGiB : Option ℚ
  currentGiB : Option ℚ
  hasRequest : Bool
  usedFrac : Option ℚ
  overReservedText : String
deriving DecidableEq, Repr

/-- The row built for one container (part_002 lines 299-324):
`requestBy.get(c) ?? null` etc., `hasRequest = request !== null && request > 0`,
`usedRatio = hasRequest && maxGiB !== null ? maxGiB / requestGiB : null`,
`overReserved = usedRatio !== null ? max(0, 1 - usedRatio) : null`,
formatted as a percentage or `"N/A"`. -/
def rowOfP2 (requests max7d current : List Series) (c : String) : Row :=
  let requestGiB := mapLookup requests c
  let maxGiB := mapLookup max7d c
  let currentGiB := mapLookup current c
  let hasRequest : Bool :=
    match requestGiB with
    | some rq => decide (0 < rq)
    | none => false
  let usedFrac : Option ℚ :=
    match requestGiB, maxGiB with
    | some rq, some mx => if 0 < rq then some (mx / rq) else none
    | _, _ => none
  let overReservedFrac : Option ℚ := usedFrac.map (fun u => max 0 (1 - u))
  Row.mk c requestGiB maxGiB currentGiB hasRequest usedFrac
    (match overReservedFrac with
      | some o => toString (pct o) ++ "%"
      | none => "N/A")

/-- `rows` of part_002 (lines 280-326): one row per visible container. -/
def rowsP2 (requests max7d current : List Series) : List Row :=
  (containersP2 current max7d).map (rowOfP2 requests max7d current)

/-- The visible container set of the limit-based revision
(FinOpsTab.tsx lines 291-293): limit keys and usage keys, filtered and
sorted. -/
def containersRevA (limits usage : List Series) : List String :=
  canonSortF (mapKeys limits ++ mapKeys usage)

/-- The visible container set of the request-baseline RAM+CPU revision
(FinOpsTab.tsx lines 916-935): current keys (RAM and CPU) plus the keys
with strictly positive value of the RAM peak, CPU peak, RAM request and
CPU request maps, filtered and sorted. -/
def containersRevB (ramCur cpuCur ramMax cpuMax ramReq cpuReq : List Series) : List String :=
  canonSortF
    (mapKeys ramCur ++ mapKeys cpuCur ++
      posKeys ramMax ++ posKeys cpuMax ++ posKeys ramReq ++ posKeys cpuReq)

/-- The visible container set of the limit-based pod-regex revision
(part_003 lines 260-262): peak keys and current keys, filtered and
sorted. -/
def containersP3 (max7d current : List Series) : List String :=
  canonSortF (mapKeys max7d ++ mapKeys current)

/-- The characters replaced by `escapeRegex = (s) => s.replace(/[.*+?^$\x7b\x7d()|[\]\\]/g, "\\$&")`
(part_002 line 52). -/
def regexMetaChars : List Char :=
  ['.', '*', '+', '?', '^', '$', '\x7b', '\x7d', '(', ')', '|', '[', ']', '\\']

def isRegexMeta (c : Char) : Bool := regexMetaChars.contains c

/-- The per-character action of that `replace`: prefix each regex
metacharacter with a backslash, keep every other character. -/
def escapeChar (c : Char) : List Char :=
  if isRegexMeta c then ['\\', c] else [c]

/-- `escapeRegex` (part_002 line 52). -/
def escapeRegex (s : String) : String :=
  String.mk (s.data.flatMap escapeChar)

/-- Scans a character list and checks that no regex metacharacter occurs
unescaped: a backslash consumes the following character, any other
character must not be a metacharacter. -/
def noUnescapedMeta : List Char → Bool
  | [] => true
  | c :: rest =>
    if c = '\\' then
      match rest with
      | [] => false
      | _ :: rest2 => noUnescapedMeta rest2
    else !(isRegexMeta c) && noUnescapedMeta rest

theorem noUnescapedMeta_cons_other (c : Char) (l : List Char) (h1 : ¬(c = '\\'))
    (h2 : isRegexMeta c = false) : noUnescapedMeta (c :: l) = noUnescapedMeta l := by
  rw [noUnescapedMeta.eq_def]
  simp [h1, h2]

theorem noUnescapedMeta_cons_backslash (c : Char) (l : List Char) :
    noUnescapedMeta ('\\' :: c :: l) = noUnescapedMeta l := by
  rw [noUnescapedMeta.eq_def]
  simp

theorem noUnescapedMeta_flatMap (l : List Char) :
    noUnescapedMeta (l.flatMap escapeChar) = true := by
  induction l with
  | nil => rfl
  | cons c rest ih =>
    rw [List.flatMap_cons]
    by_cases h : isRegexMeta c = true
    · simp only [escapeChar, h, if_pos, List.cons_append, List.singleton_append]
      rw [noUnescapedMeta_cons_backslash]
      exact ih
    · have hc : ¬(c = '\\') := by
        intro hceq
        rw [hceq] at h
        exact h rfl
      simp only [escapeChar, h, if_neg, Bool.false_eq_true, if_false, List.singleton_append]
      rw [noUnescapedMeta_cons_other c _ hc (Bool.not_eq_true _ ▸ h)]
      exact ih

theorem noUnescapedMeta_escapeRegex (s : String) :
    noUnescapedMeta (escapeRegex s).data = true :=
  noUnescapedMeta_flatMap s.data

/-- The three memory queries of part_002 `buildQueries` (lines 56-96). -/
structure MemQueries where
  max7dQuery : String
  currentQuery : String
  requestQuery : String
deriving DecidableEq, Repr

/-- The `max7dQuery` template of part_002 (lines 59-70), after `.trim()`,
as a function of the interpolated namespace and pod regex. -/
def max7dQueryExpr (ns podRegex : String) : String :=
  "max by (container) (\n  max_over_time(\n    container_memory_working_set_bytes\x7b\n      namespace=\""
    ++ ns ++ "\",\n      pod=~\"" ++ podRegex
    ++ "\",\n      container!=\"\",\n      container!=\"POD\"\n    \x7d[7d]\n  )\n) / 1024^3"

/-- The `currentQuery` template of part_002 (lines 72-81), after `.trim()`. -/
def currentQueryExpr (ns podRegex : String) : String :=
  "max by (container) (\n  container_memory_working_set_bytes\x7b\n    namespace=\""
    ++ ns ++ "\",\n    pod=~\"" ++ podRegex
    ++ "\",\n    container!=\"\",\n    container!=\"POD\"\n  \x7d\n) / 1024^3"

/-- The `requestQuery` template of part_002 (lines 83-93), after `.trim()`. -/
def requestQueryExpr (ns podRegex : String) : String :=
  "max by (container) (\n  kube_pod_container_resource_requests\x7b\n    namespace=\""
    ++ ns ++ "\",\n    pod=~\"" ++ podRegex
    ++ "\",\n    resource=\"memory\",\n    container!=\"\",\n    container!=\"POD\"\n  \x7d\n) / 1024^3"

/-- `buildQueries` of part_002 (lines 56-96): build the pod regex
`escapeRegex(workloadName) + "-.*"` and interpolate it together with the
namespace into the three query templates. -/
def buildQueriesP2 (ns workloadName : String) : MemQueries :=
  let podRegex := escapeRegex workloadName ++ "-.*"
  MemQueries.mk (max7dQueryExpr ns podRegex) (currentQueryExpr ns podRegex)
    (requestQueryExpr ns podRegex)

/-- Drops characters up to and including the first occurrence of `pat`;
`none` when `pat` does not occur. -/
def dropThroughPat (pat : List Char) : List Char → Option (List Char)
  | [] => none
  | c :: rest =>
    if pat.isPrefixOf (c :: rest) then some ((c :: rest).drop pat.length)
    else dropThroughPat pat rest

/-- Take characters up to the first double quote, the way a PromQL lexer
delimits the (unescaped) label value the generated queries contain. -/
def takeUntilQuote : List Char → List Char
  | [] => []
  | c :: rest => if c = '"' then [] else c :: takeUntilQuote rest

/-- The value of the first `label="..."` matcher in a query string, as a
PromQL lexer would read it. -/
def labelValue (q : String) (label : String) : Option String :=
  (dropThroughPat (label.data ++ ['=', '"']) q.data).map
    (fun rest => String.mk (takeUntilQuote rest))

theorem hasBaselineB_true_iff (o : Option JSNum) :
    hasBaselineB o = true ↔ ∃ q : ℚ, o = some (JSNum.fin q) ∧ 0 < q := by
  cases o with
  | none => simp [hasBaselineB, optIsFin]
  | some n => cases n <;> simp [hasBaselineB, optIsFin, optVal, JSNum.isFin, JSNum.val]

theorem optIsFin_true_iff (o : Option JSNum) :
    optIsFin o = true ↔ ∃ q : ℚ, o = some (JSNum.fin q) := by
  cases o with
  | none => simp [optIsFin]
  | some n => cases n <;> simp [optIsFin, JSNum.isFin]

/-- C7: the parser keeps exactly the payload entries whose sample value is
finite and whose container label is non-empty and not the reserved
sentinel `"POD"`; every other entry is silently dropped, and since every
kept value is the finite rational of its entry, no NaN is ever emitted
(and the parser is a total function, so it never throws). -/
theorem C7_thm (results : List RawResult) :
    parsePrometheus results = (results.filter keepEntry).map seriesOfRaw := by
  unfold parsePrometheus
  induction results with
  | nil => rfl
  | cons r rest ih =>
    rw [List.filterMap_cons, List.filter_cons, parseEntry_eq]
    cases h : keepEntry r
    · simp only [Bool.false_eq_true, if_false]
      exact ih
    · simp only [if_true, List.map_cons]
      rw [ih]

/-- C2: the derived ratio is `peak / baseline` exactly when the baseline
is present, finite and strictly positive and the peak is present and
finite; in every other case the ratio and the clamped ratio are null and
the badge shows the no-baseline text `"No request"`, regardless of the
peak value. -/
theorem C2_thm (s : Settings) (maxVal requestVal : Option JSNum) :
    (∀ rq mx : ℚ, requestVal = some (JSNum.fin rq) → 0 < rq →
      maxVal = some (JSNum.fin mx) →
      (buildDonutModel s maxVal requestVal).ratioVal = some (mx / rq)) ∧
    ((¬∃ rq mx : ℚ, requestVal = some (JSNum.fin rq) ∧ 0 < rq ∧
        maxVal = some (JSNum.fin mx)) →
      (buildDonutModel s maxVal requestVal).ratioVal = none ∧
      (buildDonutModel s maxVal requestVal).ratioClamped = none ∧
      (buildDonutModel s maxVal requestVal).badgeText = "No request") := by
  constructor
  · intro rq mx h1 h2 h3
    subst h1 h3
    rw [bd_ratioVal]
    simp [ratioValOf, hasBaselineB, optIsFin, optVal, JSNum.isFin, JSNum.val, h2]
  · intro h
    have hcond : (hasBaselineB requestVal && optIsFin maxVal) = false := by
      cases hB : hasBaselineB requestVal
      · rfl
      · cases hM : optIsFin maxVal
        · rfl
        · exfalso
          obtain ⟨rq, hrq, hpos⟩ := (hasBaselineB_true_iff requestVal).mp hB
          obtain ⟨mx, hmx⟩ := (optIsFin_true_iff maxVal).mp hM
          exact h ⟨rq, mx, hrq, hpos, hmx⟩
    have hrv : ratioValOf maxVal requestVal = none := by
      rw [ratioValOf, hcond]
      rfl
    refine ⟨?_, ?_, ?_⟩
    · rw [bd_ratioVal, hrv]
    · rw [bd_ratioClamped, hrv]
      rfl
    · rw [bd_badgeText, hrv]

/-- Witness for C2 at peak 3, request 2. -/
theorem C2_wit :
    (buildDonutModel defaultSettings (some (JSNum.fin 3)) (some (JSNum.fin 2))).ratioVal
      = some (3 / 2) :=
  (C2_thm defaultSettings (some (JSNum.fin 3)) (some (JSNum.fin 2))).1 2 3 rfl
    (by norm_num) rfl

theorem rowOfP2_container (requests max7d current : List Series) (c : String) :
    (rowOfP2 requests max7d current c).container = c := rfl

theorem rowOfP2_fields (requests max7d current : List Series) (c : String) :
    (rowOfP2 requests max7d current c).requestGiB = mapLookup requests c ∧
    (rowOfP2 requests max7d current c).maxGiB = mapLookup max7d c ∧
    (rowOfP2 requests max7d current c).currentGiB = mapLookup current c :=
  ⟨rfl, rfl, rfl⟩

/-- C1 (amended): for the part_002 reconciler, a container has a row
exactly when it is present in the "current" series (whatever its value,
including zero) or present in the "peak" series with a strictly positive
final value; and every row's request/peak/current fields are the raw map
lookups, so a field absent from its series stays `none` rather than being
zero-filled.  (The request-baseline RAM+CPU revision additionally shows
containers that only have a strictly positive request value; see the
counterexample.) -/
theorem C1_amended (requests max7d current : List Series) (c : String) :
    ((∃ row ∈ rowsP2 requests max7d current, row.container = c) ↔
      ((∃ v, mapLookup current c = some v) ∨
        (∃ v, mapLookup max7d c = some v ∧ 0 < v))) ∧
    (∀ row ∈ rowsP2 requests max7d current,
      row.requestGiB = mapLookup requests row.container ∧
      row.maxGiB = mapLookup max7d row.container ∧
      row.currentGiB = mapLookup current row.container) := by
  constructor
  · have hmem : (∃ row ∈ rowsP2 requests max7d current, row.container = c) ↔
        c ∈ containersP2 current max7d := by
      constructor
      · rintro ⟨row, hrow, hc⟩
        obtain ⟨a, ha, rfl⟩ := List.mem_map.mp hrow
        rw [rowOfP2_container] at hc
        exact hc ▸ ha
      · intro hc
        exact ⟨rowOfP2 requests max7d current c, List.mem_map.mpr ⟨c, hc, rfl⟩,
          rowOfP2_container _ _ _ _⟩
    rw [hmem, containersP2, mem_canonSort, List.mem_append, mapKeys_iff_lookup,
      mem_posKeys]
  · intro row hrow
    obtain ⟨a, _, rfl⟩ := List.mem_map.mp hrow
    exact rowOfP2_fields requests max7d current a

/-- Witness for C1 on a container present only in the "current" series
with value zero: it gets a row and its request field stays absent. -/
theorem C1_wit :
    (rowOfP2 [] [] [Series.mk "sidecar" 0] "sidecar").requestGiB =
      mapLookup [] "sidecar" :=
  ((C1_amended [] [] [Series.mk "sidecar" 0] "sidecar").2
    (rowOfP2 [] [] [Series.mk "sidecar" 0] "sidecar") (by decide)).1

/-- C1 counterexample: the request-baseline RAM+CPU revision
(FinOpsTab.tsx lines 916-935) also shows a container that appears only in
a request series with a strictly positive value: with every current and
peak series empty and a RAM request of 4 for "app", the visible container
set is ["app"], while the claimed union of current keys and positive peak
keys is empty. -/
theorem C1_cex :
    containersRevB [] [] [] [] [Series.mk "app" 4] [] = ["app"] ∧
    mapKeys ([] : List Series) = [] ∧
    posKeys ([] : List Series) = [] := by
  refine ⟨by decide, rfl, rfl⟩

theorem jsRound_eq (x : ℚ) (n : ℤ) (h1 : (n : ℚ) ≤ x + 1 / 2) (h2 : x + 1 / 2 < n + 1) :
    jsRound x = n := by
  rw [jsRound]
  exact Int.floor_eq_iff.mpr ⟨h1, h2⟩

theorem pct_eq (x : ℚ) (n : ℤ) (h1 : (n : ℚ) ≤ x * 100 + 1 / 2)
    (h2 : x * 100 + 1 / 2 < n + 1) : pct x = n := by
  rw [pct]
  exact jsRound_eq _ n h1 h2

theorem clamp01_eq_one (x : ℚ) (h : 1 ≤ x) : clamp01 x = 1 := by
  rw [clamp01, min_eq_left h, max_eq_right]
  norm_num

theorem clamp01_eq_self (x : ℚ) (h0 : 0 ≤ x) (h1 : x ≤ 1) : clamp01 x = x := by
  rw [clamp01, min_eq_right h1, max_eq_right h0]

theorem ratioValOf_fin (mx rq : ℚ) (h : 0 < rq) :
    ratioValOf (some (JSNum.fin mx)) (some (JSNum.fin rq)) = some (mx / rq) := by
  simp [ratioValOf, hasBaselineB, optIsFin, optVal, JSNum.isFin, JSNum.val, h]

/-- C3 (amended): whenever the derived ratio is defined, the clamped
display ratio equals `clamp(ratio, 0, 1)`; but only the limit-based
revision's `percentText` computes the numeric percentage from the
unclamped ratio (yielding "150%" at ratio 1.5), while `buildDonutModel`'s
badge percentage is computed from the clamped ratio, so at ratio 1.5 the
clamped ratio is 1 and the badge saturates at 100%. -/
theorem C3_amended (s : Settings) (mx rq : Option JSNum) (r : ℚ) :
    ((buildDonutModel s mx rq).ratioVal = some r →
      (buildDonutModel s mx rq).ratioClamped = some (clamp01 r) ∧
      (buildDonutModel s mx rq).badgeText = toString (pct (clamp01 r)) ++ "% used") ∧
    percentTextA (some (3 / 2)) = "150%" ∧
    (buildDonutModel defaultSettings (some (JSNum.fin 3)) (some (JSNum.fin 2))).ratioClamped
      = some 1 := by
  refine ⟨?_, ?_, ?_⟩
  · intro h
    rw [bd_ratioVal] at h
    rw [bd_ratioClamped, bd_badgeText, h]
    exact ⟨rfl, rfl⟩
  · show toString (jsRound ((3 : ℚ) / 2 * 100)) ++ "%" = "150%"
    rw [show jsRound ((3 : ℚ) / 2 * 100) = 150 from jsRound_eq _ 150 (by norm_num) (by norm_num)]
    decide
  · rw [bd_ratioClamped, ratioValOf_fin 3 2 (by norm_num)]
    show some (clamp01 (3 / 2)) = some 1
    rw [clamp01_eq_one _ (by norm_num)]

/-- Witness for C3 at peak 3, request 4 (ratio 0.75). -/
theorem C3_wit :
    (buildDonutModel defaultSettings (some (JSNum.fin 3)) (some (JSNum.fin 4))).ratioClamped
        = some (clamp01 (3 / 4)) ∧
    (buildDonutModel defaultSettings (some (JSNum.fin 3)) (some (JSNum.fin 4))).badgeText
        = toString (pct (clamp01 (3 / 4))) ++ "% used" :=
  (C3_amended defaultSettings (some (JSNum.fin 3)) (some (JSNum.fin 4)) (3 / 4)).1
    (by rw [bd_ratioVal, ratioValOf_fin 3 4 (by norm_num)])

/-- C3 counterexample: at ratio 1.5 (peak 3, request 2) the clamped ratio
is 1 but the badge text is "100% used", not the "150% used" that a
percentage computed from the unclamped ratio would give. -/
theorem C3_cex :
    (buildDonutModel defaultSettings (some (JSNum.fin 3)) (some (JSNum.fin 2))).ratioVal
        = some (3 / 2) ∧
    (buildDonutModel defaultSettings (some (JSNum.fin 3)) (some (JSNum.fin 2))).badgeText
        = "100% used" ∧
    ((buildDonutModel defaultSettings (some (JSNum.fin 3)) (some (JSNum.fin 2))).badgeText
        = "150% used") = False := by
  have hb : (buildDonutModel defaultSettings (some (JSNum.fin 3)) (some (JSNum.fin 2))).badgeText
      = "100% used" := by
    rw [bd_badgeText, ratioValOf_fin 3 2 (by norm_num)]
    show toString (pct (clamp01 (3 / 2))) ++ "% used" = "100% used"
    rw [clamp01_eq_one _ (by norm_num),
      show pct (1 : ℚ) = 100 from pct_eq _ 100 (by norm_num) (by norm_num)]
    decide
  refine ⟨?_, hb, eq_false ?_⟩
  · rw [bd_ratioVal, ratioValOf_fin 3 2 (by norm_num)]
  · intro hcontra
    rw [hb] at hcontra
    exact absurd hcontra (by decide)

theorem getDonutColor_default (u : ℚ) :
    getDonutColor defaultSettings (some u) true =
      (if clamp01 u < 1 / 10 then "#C9190B"
        else if clamp01 u < 1 / 2 then "#F0AB00" else "#3E8635") := rfl

/-- C4: under the inverted / cost-framing policy with the default
configuration, a defined ratio below 0.1 is red, in [0.1, 0.5) yellow and
at or above 0.5 green with no upper bound (1.2 is green); and whenever
`enableThresholdColors` is false, the derived color is the configured
green regardless of the ratio. -/
theorem C4_thm (s : Settings) (mx rq : Option JSNum) (r : ℚ) :
    (r < 1 / 10 → getDonutColor defaultSettings (some r) true = "#C9190B") ∧
    (1 / 10 ≤ r → r < 1 / 2 → getDonutColor defaultSettings (some r) true = "#F0AB00") ∧
    (1 / 2 ≤ r → getDonutColor defaultSettings (some r) true = "#3E8635") ∧
    getDonutColor defaultSettings (some (6 / 5)) true = "#3E8635" ∧
    (s.enableThresholdColors = false →
      (buildDonutModel s mx rq).color = s.colorGreen.getD "#3E8635") := by
  refine ⟨?_, ?_, ?_, ?_, ?_⟩
  · intro h
    have hcl : clamp01 r < 1 / 10 := by
      rw [clamp01]
      exact max_lt (by norm_num) (min_lt_iff.mpr (Or.inr h))
    rw [getDonutColor_default, if_pos hcl]
  · intro h1 h2
    have hcl : clamp01 r = r := clamp01_eq_self r (by linarith) (by linarith)
    rw [getDonutColor_default, hcl, if_neg (not_lt.mpr h1), if_pos h2]
  · intro h
    have hcl : 1 / 2 ≤ clamp01 r := by
      rw [clamp01]
      exact le_trans (le_min (by norm_num) h) (le_max_right _ _)
    rw [getDonutColor_default,
      if_neg (not_lt.mpr (le_trans (by norm_num : (1 : ℚ) / 10 ≤ 1 / 2) hcl)),
      if_neg (not_lt.mpr hcl)]
  · have hcl : 1 / 2 ≤ clamp01 ((6 : ℚ) / 5) := by
      rw [clamp01_eq_one _ (by norm_num)]
      norm_num
    rw [getDonutColor_default,
      if_neg (not_lt.mpr (le_trans (by norm_num : (1 : ℚ) / 10 ≤ 1 / 2) hcl)),
      if_neg (not_lt.mpr hcl)]
  · intro h
    rw [bd_color, h]
    cases ratioValOf mx rq <;> rfl

/-- Witness for C4 at ratio 0.05 (red tier). -/
theorem C4_wit : getDonutColor defaultSettings (some ((1 : ℚ) / 20)) true = "#C9190B" :=
  (C4_thm defaultSettings none none (1 / 20)).1 (by norm_num)

theorem statusLabel_hi (r : ℚ) (h : 9 / 10 ≤ r) :
    getStatusLabel (some r) = ("CRITICAL", "#c9190b") := by
  show (if r ≥ 9 / 10 then ("CRITICAL", "#c9190b")
    else if r ≥ 7 / 10 then ("WARNING", "#f0ab00")
    else ("OK", "#3e8635")) = ("CRITICAL", "#c9190b")
  rw [if_pos h]

theorem statusLabel_mid (r : ℚ) (h1 : 7 / 10 ≤ r) (h2 : r < 9 / 10) :
    getStatusLabel (some r) = ("WARNING", "#f0ab00") := by
  show (if r ≥ 9 / 10 then ("CRITICAL", "#c9190b")
    else if r ≥ 7 / 10 then ("WARNING", "#f0ab00")
    else ("OK", "#3e8635")) = ("WARNING", "#f0ab00")
  rw [if_neg (not_le.mpr h2), if_pos h1]

theorem statusLabel_lo (r : ℚ) (h : r < 7 / 10) :
    getStatusLabel (some r) = ("OK", "#3e8635") := by
  show (if r ≥ 9 / 10 then ("CRITICAL", "#c9190b")
    else if r ≥ 7 / 10 then ("WARNING", "#f0ab00")
    else ("OK", "#3e8635")) = ("OK", "#3e8635")
  rw [if_neg (not_le.mpr (lt_trans h (by norm_num))), if_neg (not_le.mpr h)]

theorem rank_hi (r : ℚ) (h : 9 / 10 ≤ r) : statusRank (some r) = 2 := by
  rw [statusRank, statusLabel_hi r h]
  rfl

theorem rank_mid (r : ℚ) (h1 : 7 / 10 ≤ r) (h2 : r < 9 / 10) : statusRank (some r) = 1 := by
  rw [statusRank, statusLabel_mid r h1 h2]
  rfl

theorem rank_lo (r : ℚ) (h : r < 7 / 10) : statusRank (some r) = 0 := by
  rw [statusRank, statusLabel_lo r h]
  rfl

/-- C5: under the fixed-boundary policy the status tier is exactly
CRITICAL for ratio at least 0.9, WARNING on [0.7, 0.9), OK below 0.7; the
tier rank is monotone in the ratio; and ratio 0.5 is OK, 0.75 WARNING,
0.95 CRITICAL. -/
theorem C5_thm (r r2 : ℚ) :
    ((getStatusLabel (some r)).1 = "CRITICAL" ↔ 9 / 10 ≤ r) ∧
    ((getStatusLabel (some r)).1 = "WARNING" ↔ 7 / 10 ≤ r ∧ r < 9 / 10) ∧
    ((getStatusLabel (some r)).1 = "OK" ↔ r < 7 / 10) ∧
    (r ≤ r2 → statusRank (some r) ≤ statusRank (some r2)) ∧
    getStatusLabel (some (1 / 2)) = ("OK", "#3e8635") ∧
    getStatusLabel (some (3 / 4)) = ("WARNING", "#f0ab00") ∧
    getStatusLabel (some (19 / 20)) = ("CRITICAL", "#c9190b") := by
  refine ⟨?_, ?_, ?_, ?_, statusLabel_lo _ (by norm_num),
    statusLabel_mid _ (by norm_num) (by norm_num), statusLabel_hi _ (by norm_num)⟩
  · constructor
    · intro h
      by_contra hn
      push_neg at hn
      rcases le_or_lt (7 / 10) r with h7 | h7
      · rw [statusLabel_mid r h7 hn] at h
        exact absurd h (by decide)
      · rw [statusLabel_lo r h7] at h
        exact absurd h (by decide)
    · intro h
      rw [statusLabel_hi r h]
  · constructor
    · intro h
      rcases le_or_lt (9 / 10) r with h9 | h9
      · rw [statusLabel_hi r h9] at h
        exact absurd h (by decide)
      · rcases le_or_lt (7 / 10) r with h7 | h7
        · exact ⟨h7, h9⟩
        · rw [statusLabel_lo r h7] at h
          exact absurd h (by decide)
    · rintro ⟨h7, h9⟩
      rw [statusLabel_mid r h7 h9]
  · constructor
    · intro h
      rcases le_or_lt (9 / 10) r with h9 | h9
      · rw [statusLabel_hi r h9] at h
        exact absurd h (by decide)
      · rcases le_or_lt (7 / 10) r with h7 | h7
        · rw [statusLabel_mid r h7 h9] at h
          exact absurd h (by decide)
        · exact h7
    · intro h
      rw [statusLabel_lo r h]
  · intro hle
    rcases le_or_lt (9 / 10) r with h9 | h9
    · rw [rank_hi r h9, rank_hi r2 (le_trans h9 hle)]
    · rcases le_or_lt (7 / 10) r with h7 | h7
      · rw [rank_mid r h7 h9]
        rcases le_or_lt (9 / 10) r2 with h9b | h9b
        · rw [rank_hi r2 h9b]
          norm_num
        · rw [rank_mid r2 (le_trans h7 hle) h9b]
      · rw [rank_lo r h7]
        exact Nat.zero_le _

/-- Witness for C5: rank at ratio 0.75 is at most the rank at 0.95. -/
theorem C5_wit : statusRank (some ((3 : ℚ) / 4)) ≤ statusRank (some ((19 : ℚ) / 20)) :=
  ((C5_thm (3 / 4) (19 / 20)).2.2.2.1) (by norm_num)

/-- C6: whenever the derived ratio is defined, the over-reserved fraction
shown is `max(0, 1 - ratio)` formatted as a percentage (hence "0%" for
every ratio at least 1, and "70%" at ratio 0.30); whenever the ratio is
undefined, the over-reserved text is "N/A". -/
theorem C6_thm (s : Settings) (mx rq : Option JSNum) (r : ℚ) :
    ((buildDonutModel s mx rq).ratioVal = some r →
      (buildDonutModel s mx rq).overReservedText = toString (pct (max 0 (1 - r))) ++ "%" ∧
      (1 ≤ r → (buildDonutModel s mx rq).overReservedText = "0%")) ∧
    ((buildDonutModel s mx rq).ratioVal = none →
      (buildDonutModel s mx rq).overReservedText = "N/A") ∧
    (buildDonutModel defaultSettings (some (JSNum.fin 3)) (some (JSNum.fin 10))).overReservedText
      = "70%" := by
  refine ⟨?_, ?_, ?_⟩
  · intro h
    rw [bd_ratioVal] at h
    have htext : (buildDonutModel s mx rq).overReservedText
        = toString (pct (max 0 (1 - r))) ++ "%" := by
      rw [bd_overReservedText, h]
      rfl
    refine ⟨htext, ?_⟩
    intro h1
    rw [htext, max_eq_left (by linarith),
      show pct (0 : ℚ) = 0 from pct_eq _ 0 (by norm_num) (by norm_num)]
    decide
  · intro h
    rw [bd_ratioVal] at h
    rw [bd_overReservedText, h]
    rfl
  · rw [bd_overReservedText, ratioValOf_fin 3 10 (by norm_num)]
    show toString (pct (max 0 (1 - (3 : ℚ) / 10))) ++ "%" = "70%"
    rw [show max 0 (1 - (3 : ℚ) / 10) = 7 / 10 from by rw [max_eq_right] <;> norm_num,
      show pct ((7 : ℚ) / 10) = 70 from pct_eq _ 70 (by norm_num) (by norm_num)]
    decide

/-- Witness for C6 at peak 3, request 10 (ratio 0.3). -/
theorem C6_wit :
    (buildDonutModel defaultSettings (some (JSNum.fin 3)) (some (JSNum.fin 10))).overReservedText
      = toString (pct (max 0 (1 - 3 / 10))) ++ "%" :=
  ((C6_thm defaultSettings (some (JSNum.fin 3)) (some (JSNum.fin 10)) (3 / 10)).1
    (by rw [bd_ratioVal, ratioValOf_fin 3 10 (by norm_num)])).1

/-- C9: `buildDonutModel` is a deterministic pure function: two calls
with equal settings, peak values and baseline values return equal donut
models. -/
theorem C9_thm (s1 s2 : Settings) (mx1 mx2 rq1 rq2 : Option JSNum)
    (hs : s1 = s2) (hmx : mx1 = mx2) (hrq : rq1 = rq2) :
    buildDonutModel s1 mx1 rq1 = buildDonutModel s2 mx2 rq2 := by
  rw [hs, hmx, hrq]

/-- Witness for C9 at a concrete input. -/
theorem C9_wit :
    buildDonutModel defaultSettings (some (JSNum.fin 5)) (some (JSNum.fin 4)) =
      buildDonutModel defaultSettings (some (JSNum.fin 5)) (some (JSNum.fin 4)) :=
  C9_thm defaultSettings defaultSettings (some (JSNum.fin 5)) (some (JSNum.fin 5))
    (some (JSNum.fin 4)) (some (JSNum.fin 4)) rfl rfl rfl

set_option maxRecDepth 4000 in
/-- C8 (amended): `buildQueries` is a total pure function, returning
expressions for every namespace and workload name including empty ones,
and every regex metacharacter of the workload name is escaped before the
name reaches the `pod=~"<name>-.*"` matcher; but no other sanitization is
applied — the namespace (and the escaped name) are interpolated verbatim,
so a double quote in the namespace corrupts the expression (see the
counterexample). -/
theorem C8_amended (ns workloadName : String) :
    noUnescapedMeta (escapeRegex workloadName).data = true ∧
    buildQueriesP2 ns workloadName =
      MemQueries.mk (max7dQueryExpr ns (escapeRegex workloadName ++ "-.*"))
        (currentQueryExpr ns (escapeRegex workloadName ++ "-.*"))
        (requestQueryExpr ns (escapeRegex workloadName ++ "-.*")) ∧
    0 < (buildQueriesP2 "" "").max7dQuery.length :=
  ⟨noUnescapedMeta_escapeRegex workloadName, rfl, by decide⟩

/-- C8 counterexample: with the namespace `x",evil="y` the namespace
label value that a PromQL reader extracts from the generated 7-day peak
query is just `x` — the quote in the namespace terminates the label
string early, so the input is not sanitized and the remainder is injected
into the expression. -/
theorem C8_cex :
    labelValue (buildQueriesP2 "x\",evil=\"y" "app").max7dQuery "namespace" = some "x" ∧
    (labelValue (buildQueriesP2 "x\",evil=\"y" "app").max7dQuery "namespace"
        = some "x\",evil=\"y") = False := by
  refine ⟨by decide, eq_false ?_⟩
  intro h
  rw [show labelValue (buildQueriesP2 "x\",evil=\"y" "app").max7dQuery "namespace"
      = some "x" from by decide] at h
  exact absurd h (by decide)

/-- C10: every reconciler revision produces at most one record per
container name, listed in ascending lexicographic order: the mapped
container names of the part_002 rows and the container lists of the
limit-based, request-baseline RAM+CPU, and pod-regex limit revisions are
all sorted and duplicate-free. -/
theorem C10_thm (requests max7d current limits usage ramCur cpuCur ramMax cpuMax ramReq cpuReq :
    List Series) :
    List.Sorted (fun a b => a ≤ b) ((rowsP2 requests max7d current).map Row.container) ∧
    ((rowsP2 requests max7d current).map Row.container).Nodup ∧
    List.Sorted (fun a b => a ≤ b) (containersRevA limits usage) ∧
    (containersRevA limits usage).Nodup ∧
    List.Sorted (fun a b => a ≤ b) (containersRevB ramCur cpuCur ramMax cpuMax ramReq cpuReq) ∧
    (containersRevB ramCur cpuCur ramMax cpuMax ramReq cpuReq).Nodup ∧
    List.Sorted (fun a b => a ≤ b) (containersP3 max7d current) ∧
    (containersP3 max7d current).Nodup := by
  have hmap : (rowsP2 requests max7d current).map Row.container
      = containersP2 current max7d := by
    rw [rowsP2, List.map_map]
    exact List.map_id'' (fun x => rfl) _
  rw [hmap]
  exact ⟨canonSort_sorted _, canonSort_nodup _, canonSortF_sorted _, canonSortF_nodup _,
    canonSortF_sorted _, canonSortF_nodup _, canonSortF_sorted _, canonSortF_nodup _⟩
